import Mathlib

/-!
Verification development for the lrcput repository (src/lrcput.py).

The Python source is shallowly embedded: pure string manipulation becomes
Lean functions on lists of characters, and every fallible I/O step
(tag-library loads, network requests, file removal, subprocess calls) is
driven by an explicit environment record that fixes the outcome of that
step.  Exceptions that the Python code catches are modelled by branching
on the environment; exceptions the code does not catch surface as
Except.error.  Counters and returned tuples are modelled exactly as the
source computes them.
-/

namespace Lrcput

/-! ## Character and list utilities (CPython string/os.path semantics) -/

/-- ASCII lowercasing, as performed by str.lower on the extensions that
occur here (extensions are ASCII; only A-Z are affected). -/
def lowerChar (c : Char) : Char :=
  if 'A' ≤ c ∧ c ≤ 'Z' then Char.ofNat (c.toNat + 32) else c

/-- str.lower over a whole string (as a list of characters). -/
def lowerL (l : List Char) : List Char := l.map lowerChar

/-- str.strip: remove surrounding whitespace. -/
def trimL (l : List Char) : List Char :=
  ((l.dropWhile (fun c => c.isWhitespace)).reverse.dropWhile
      (fun c => c.isWhitespace)).reverse

/-- Last path component, splitting on both separators: models
re.split applied to the pattern matching a slash or backslash, taking the
last piece (lrcput.py line 233).  Folding left and restarting the
accumulator at each separator yields exactly the final piece, including
the empty piece when the path ends with a separator. -/
def lastComponentBoth (l : List Char) : List Char :=
  l.foldl (fun acc c => if c = '/' ∨ c = '\\' then [] else acc ++ [c]) []

/-- Helper for the CPython os.path.splitext rule: scanning the reversed
path after the candidate final dot (that is, scanning the characters that
precede the dot in the original string), is there a non-dot character
before the basename boundary?  CPython treats a name whose characters
before the last dot are all dots (such as .bashrc) as having no
extension. -/
def hasNonDotBeforeSlash : List Char → Bool
  | [] => false
  | c :: cs =>
    if c = '/' then false
    else if c = '.' then hasNonDotBeforeSlash cs
    else true

/-- os.path.splitext extension computation (POSIX separators), performed
on the reversed string: the extension is the suffix starting at the last
dot, provided that dot lies inside the last path component and is
preceded there by at least one non-dot character.  Returns the reversed
extension (including the dot). -/
def extRevAux : List Char → Option (List Char)
  | [] => none
  | c :: cs =>
    if c = '/' then none
    else if c = '.' then (if hasNonDotBeforeSlash cs then some [c] else none)
    else
      match extRevAux cs with
      | some e => some (c :: e)
      | none => none

/-- os.path.splitext(path)[1]: the extension including the leading dot,
or the empty list when there is none. -/
def extOf (path : List Char) : List Char :=
  match extRevAux path.reverse with
  | some e => e.reverse
  | none => []

/-- os.path.splitext(path)[0]: everything before the extension. -/
def stemOf (path : List Char) : List Char :=
  path.take (path.length - (extOf path).length)

/-- str.endswith(suffix). -/
def endswith (l suffix : List Char) : Bool :=
  suffix.isSuffixOf l

/-- Python str.split(sep, 1) restricted to a present, non-empty
separator: locate the first occurrence of sep and split there.  Returns
none when sep does not occur. -/
def splitFirstSub (sep : List Char) : List Char → Option (List Char × List Char)
  | [] => none
  | c :: cs =>
    if sep.isPrefixOf (c :: cs) then some ([], (c :: cs).drop sep.length)
    else
      match splitFirstSub sep cs with
      | some (pre, post) => some (c :: pre, post)
      | none => none

/-- Python truthiness of an optional string value (None and the empty
string are falsy). -/
def truthy : Option (List Char) → Bool
  | none => false
  | some l => !l.isEmpty

/-- Python truthiness for optional opaque lyric payloads. -/
def truthyS : Option String → Bool
  | none => false
  | some s => !s.isEmpty

/-- Python a-or-b on optional strings: the left value when truthy,
otherwise the right. -/
def pyOr (a b : Option (List Char)) : Option (List Char) :=
  if truthy a then a else b

/-- Python a-or-b on optional lyric payloads. -/
def pyOrS (a b : Option String) : Option String :=
  if truthyS a then a else b

/-- Python value-or-None: the strip-then-or-None idiom used by the
manual-resolution pass (lrcput.py line 392). -/
def noneIfEmpty (l : List Char) : Option (List Char) :=
  if l.isEmpty then none else some l

/-! ## Filename heuristic (lrcput.py lines 227-247) -/

/-- parse_artist_title_from_filename: take the last path component
(splitting on both slash styles), drop the extension, then split on the
first occurrence of the dash separator, else on the first underscore,
else fall back to (absent artist, whole stem); every produced part is
stripped.  The source guards each split with a containment test and a
length check; with maxsplit 1 a present separator always yields exactly
two parts, so the guard is equivalent to matching on the first-occurrence
split. -/
def parse_artist_title_from_filename (path : List Char) :
    Option (List Char) × List Char :=
  match splitFirstSub (" - ".toList) (stemOf (lastComponentBoth path)) with
  | some (a, t) => (some (trimL a), trimL t)
  | none =>
    match splitFirstSub ("_".toList) (stemOf (lastComponentBoth path)) with
    | some (a, t) => (some (trimL a), trimL t)
    | none => (none, trimL (stemOf (lastComponentBoth path)))

/-- The filename heuristic exactly as the specification words it: the
stem is the filename without directory and without extension; if the stem
contains the dash separator, split on its first occurrence; else if it
contains an underscore, split on its first occurrence; else the whole
stem is the title with artist absent; both parts are trimmed. -/
def parse_spec (path : List Char) : Option (List Char) × List Char :=
  if (" - ".toList) <:+: stemOf (lastComponentBoth path) then
    match splitFirstSub (" - ".toList) (stemOf (lastComponentBoth path)) with
    | some (a, t) => (some (trimL a), trimL t)
    | none => (none, trimL (stemOf (lastComponentBoth path)))
  else if ("_".toList) <:+: stemOf (lastComponentBoth path) then
    match splitFirstSub ("_".toList) (stemOf (lastComponentBoth path)) with
    | some (a, t) => (some (trimL a), trimL t)
    | none => (none, trimL (stemOf (lastComponentBoth path)))
  else (none, trimL (stemOf (lastComponentBoth path)))

/-! ## LRCLib lookup client (lrcput.py lines 249-284)

The two HTTP requests are driven by an environment that fixes, for each
request, whether the call (or the subsequent JSON decode) raises, the
status code, and the decoded body.  The function returns the result
together with the list of requests actually issued. -/

/-- A candidate record from the service: a JSON object with optional
syncedLyrics and plainLyrics fields (absent key = none). -/
structure LrcRecord where
  syncedLyrics : Option String
  plainLyrics : Option String
  deriving DecidableEq

/-- The decoded body of the search response: the code checks that the
JSON value is a list before using it. -/
inductive SearchBody where
  | nonList
  | items (l : List LrcRecord)
  deriving DecidableEq

/-- Outcome of the get request: either the call or the JSON decode
raises, or a status code with a decoded object body. -/
inductive GetOutcome where
  | raise
  | resp (status : Nat) (jsonRaise : Bool) (body : LrcRecord)
  deriving DecidableEq

/-- Outcome of the search request. -/
inductive SearchOutcome where
  | raise
  | resp (status : Nat) (jsonRaise : Bool) (body : SearchBody)
  deriving DecidableEq

/-- Network environment for one invocation of the lookup client. -/
structure LrclibEnv where
  getResp : GetOutcome
  searchResp : SearchOutcome
  deriving DecidableEq

/-- Names of the two endpoints, used to record which requests were
issued. -/
inductive Req where
  | get
  | search
  deriving DecidableEq

/-- The first-with-synced-lyrics selection loop over search candidates
(lrcput.py lines 274-278): scan in order, stopping at the first record
whose syncedLyrics value is truthy. -/
def pickBest : List LrcRecord → Option LrcRecord
  | [] => none
  | it :: rest => if truthyS it.syncedLyrics then some it else pickBest rest

/-- The search step of the lookup client (lrcput.py lines 269-281),
entered after the get request was issued: issue the search request; on
status 200 with a non-empty list body, pick the first record with truthy
syncedLyrics (else the first record) and return its syncedLyrics-or-
plainLyrics; anything else yields no result.  A raised call or JSON
decode is caught by the surrounding handler and yields no result. -/
def lrclibSearchStep (env : LrclibEnv) : Option String × List Req :=
  match env.searchResp with
  | .raise => (none, [Req.get, Req.search])
  | .resp status jsonRaise body =>
    if status = 200 then
      if jsonRaise then (none, [Req.get, Req.search])
      else
        match body with
        | .nonList => (none, [Req.get, Req.search])
        | .items [] => (none, [Req.get, Req.search])
        | .items (it :: rest) =>
          let best := match pickBest (it :: rest) with
            | some b => b
            | none => it
          (pyOrS best.syncedLyrics best.plainLyrics, [Req.get, Req.search])
    else (none, [Req.get, Req.search])

/-- fetch_lyrics_from_lrclib: short-circuit on falsy artist or title,
else issue the get request; a 200 response with truthy
syncedLyrics-or-plainLyrics is returned at once; a non-200 response or a
200 response without usable lyrics falls through to the search step.  A
raised request or JSON decode anywhere is caught by the single handler
wrapping both steps and yields no result.  The duration argument only
affects the query parameters, never the control flow. -/
def fetch_lyrics_from_lrclib (artist title : Option (List Char))
    (duration : Option Int) (env : LrclibEnv) : Option String × List Req :=
  if !(truthy artist) || !(truthy title) then (none, [])
  else
    match env.getResp with
    | .raise => (none, [Req.get])
    | .resp status jsonRaise body =>
      if status = 200 then
        if jsonRaise then (none, [Req.get])
        else if truthyS (pyOrS body.syncedLyrics body.plainLyrics) then
          (pyOrS body.syncedLyrics body.plainLyrics, [Req.get])
        else lrclibSearchStep env
      else lrclibSearchStep env

/-- The get step yielded nothing without aborting the handler: either a
non-200 status, or a clean 200 decode whose lyrics fields are falsy.
This is exactly the condition under which the code issues the search
request. -/
def getStepMisses (env : LrclibEnv) : Bool :=
  match env.getResp with
  | .raise => false
  | .resp status jsonRaise body =>
    if status = 200 then
      !jsonRaise && !(truthyS (pyOrS body.syncedLyrics body.plainLyrics))
    else true

/-! ## Tag metadata reader (lrcput.py lines 180-225)

The per-file environment fixes the outcomes of the fallible steps:
whether loading the audio object raises, whether the object carries no
tag container, the tag values, and whether the duration computation
raises.  The reader initialises artist, title and duration to absent and
a single handler swallows any exception, so a raise keeps whatever had
been assigned up to that point. -/

/-- Outcomes of the fallible steps when reading tags from one file. -/
structure TagReadEnv where
  loadRaises : Bool
  noTags : Bool
  artist : Option (List Char)
  title : Option (List Char)
  durRaises : Bool
  duration : Option Int
  deriving DecidableEq

/-- read_tags_for_lrclib: dispatch on the lowercased extension; each
branch assigns artist and title before computing the duration, so a
raise during the duration computation leaves the already-assigned fields
in place while the handler swallows the exception.  In the mp3 branch
all three assignments sit inside the tag-presence guard; in the m4a and
generic branches the duration is computed even when the tag container is
absent; in the generic branch the duration computation has its own inner
handler, with the same observable result. -/
def read_tags_for_lrclib (name : List Char) (env : TagReadEnv) :
    Option (List Char) × Option (List Char) × Option Int :=
  if lowerL (extOf name) = ".mp3".toList then
    if env.loadRaises then (none, none, none)
    else if env.noTags then (none, none, none)
    else if env.durRaises then (env.artist, env.title, none)
    else (env.artist, env.title, env.duration)
  else if lowerL (extOf name) = ".flac".toList then
    if env.loadRaises then (none, none, none)
    else if env.durRaises then (env.artist, env.title, none)
    else (env.artist, env.title, env.duration)
  else if lowerL (extOf name) = ".m4a".toList then
    if env.loadRaises then (none, none, none)
    else if env.durRaises then
      (if env.noTags then none else env.artist,
       if env.noTags then none else env.title, none)
    else
      (if env.noTags then none else env.artist,
       if env.noTags then none else env.title, env.duration)
  else
    if env.loadRaises then (none, none, none)
    else
      (if env.noTags then none else env.artist,
       if env.noTags then none else env.title,
       if env.durRaises then none else env.duration)

/-! ## Tag-adapter dispatch (lrcput.py lines 42-44, 132-137, 314-319) -/

/-- The per-format variants of the tag adapter. -/
inductive Adapter where
  | flac
  | mp4
  | mp3
  | convertFallback
  deriving DecidableEq

/-- The writeLyrics dispatch of embed_lyrics_text_to_file: the extension
is lowercased before comparison, any unmatched extension goes to the
convert-to-mp3 fallback. -/
def writeDispatch (path : List Char) : Adapter :=
  if lowerL (extOf path) = ".mp3".toList then Adapter.mp3
  else if lowerL (extOf path) = ".flac".toList then Adapter.flac
  else if lowerL (extOf path) = ".m4a".toList then Adapter.mp4
  else Adapter.convertFallback

/-- The in-loop existing-lyrics detection dispatch used by both batch
runners: a case-sensitive endswith chain; an unmatched name loads no
audio object, so the skip check reports no embedded lyrics. -/
def skipCheckAdapter (file : List Char) : Option Adapter :=
  if endswith file (".flac".toList) then some Adapter.flac
  else if endswith file (".mp3".toList) then some Adapter.mp3
  else if endswith file (".m4a".toList) then some Adapter.mp4
  else none

/-- Candidate filter of the local batch (lrcput.py line 118):
case-sensitive endswith on the three supported extensions. -/
def isLocalCandidate (file : List Char) : Bool :=
  endswith file (".flac".toList) || endswith file (".mp3".toList) ||
    endswith file (".m4a".toList)

/-- Candidate filter of the remote batch (lrcput.py lines 295-299). -/
def isRemoteCandidate (file : List Char) : Bool :=
  endswith file (".flac".toList) || endswith file (".mp3".toList) ||
    endswith file (".m4a".toList) || endswith file (".wav".toList) ||
    endswith file (".ogg".toList) || endswith file (".aac".toList) ||
    endswith file (".wma".toList) || endswith file (".alac".toList)

/-! ## Local batch runner embed_lrc (lrcput.py lines 106-168)

Directory contents are supplied as the output of os.walk: one entry per
visited directory holding its regular files (os.walk yields no entry at
all for a directory that does not exist, and yields bare file names).
Each file carries the outcomes of the fallible operations on it.  The
skip-existing load sits outside the try block, and the failure marker
move inside the handler also sits outside any try, so a raise at either
place aborts the whole run (Except.error); everything inside the try is
caught per file. -/

/-- Outcomes of the fallible per-file operations in the local batch. -/
structure LocalFileEnv where
  lrcExists : Bool
  loadRaises : Bool
  hasLyrics : Bool
  embedRaises : Bool
  removeRaises : Bool
  moveRaises : Bool
  deriving DecidableEq

/-- A regular file as enumerated by os.walk, with its operation
outcomes. -/
structure LFile where
  name : List Char
  env : LocalFileEnv
  deriving DecidableEq

/-- Accumulated counters of the local batch.  The skipped count is not a
variable in the source; it is instrumentation counting the executions of
the skip-continue branch, and the returned triple does not include it. -/
structure LState where
  embedded : Nat
  skipped : Nat
  failed : List (List Char)
  deriving DecidableEq

/-- The except-handler of the local per-file loop (lrcput.py lines
158-166): append to the failed list, then move the companion file to its
failed marker; the move itself runs outside any try, so a raise there
aborts the run. -/
def lrcHandler (st : LState) (f : LFile) : Except Unit LState :=
  if f.env.moveRaises then Except.error ()
  else Except.ok { st with failed := st.failed ++ [f.name] }

/-- The try block of the local per-file loop (lrcput.py lines 143-166):
read and embed the companion lyrics, count the embed, then remove the
companion when requested; any raise lands in the handler, so a raise
during removal counts the same file as embedded and failed. -/
def lrcTryEmbed (reduce_lrc : Bool) (st : LState) (f : LFile) :
    Except Unit LState :=
  if f.env.embedRaises then lrcHandler st f
  else
    let st := { st with embedded := st.embedded + 1 }
    if reduce_lrc then
      if f.env.removeRaises then lrcHandler st f
      else Except.ok st
    else Except.ok st

/-- One iteration of the local per-file loop (lrcput.py lines 124-166):
a file whose companion lyric file does not exist is passed over with no
effect on any counter; otherwise the optional skip-existing check loads
the audio object (outside the try block: a raise aborts the run) and
skips when lyrics are already embedded, else the try block runs. -/
def lrcStep (skip_existing reduce_lrc : Bool) (st : LState) (f : LFile) :
    Except Unit LState :=
  if f.env.lrcExists then
    if skip_existing then
      if f.env.loadRaises then Except.error ()
      else if f.env.hasLyrics then
        Except.ok { st with skipped := st.skipped + 1 }
      else lrcTryEmbed reduce_lrc st f
    else lrcTryEmbed reduce_lrc st f
  else Except.ok st

/-- embed_lrc with the instrumented state: enumerate candidates (only
the first os.walk entry when not recursive, matching the break at the
end of the first iteration), run the per-file loop, and return the
candidate count with the final counters. -/
def embed_lrc_full (walk : List (List LFile))
    (skip_existing reduce_lrc recursive : Bool) :
    Except Unit (Nat × LState) :=
  match ((if recursive then walk else walk.take 1).flatten.filter
      (fun f => isLocalCandidate f.name)).foldlM
      (fun s f => lrcStep skip_existing reduce_lrc s f) ⟨0, 0, []⟩ with
  | Except.error e => Except.error e
  | Except.ok st =>
    Except.ok (((if recursive then walk else walk.take 1).flatten.filter
      (fun f => isLocalCandidate f.name)).length, st)

/-- embed_lrc as the source returns it: (total audio files, embedded
count, failed file names). -/
def embed_lrc (walk : List (List LFile))
    (skip_existing reduce_lrc recursive : Bool) :
    Except Unit (Nat × Nat × List (List Char)) :=
  (embed_lrc_full walk skip_existing reduce_lrc recursive).map
    (fun r => (r.1, r.2.embedded, r.2.failed))

/-! ## Remote batch runner embed_lrclib_batch (lrcput.py lines 286-371)

Every per-file step of the main loop sits inside one try block, so all
raises are caught and counted as failures; files with unresolvable
artist or title are queued for the manual pass, which runs after the
loop and adds its embed count. -/

/-- Outcomes of the fallible per-file operations in the remote batch,
including the interactive-resolution inputs used if the file is
deferred. -/
structure RemoteFileEnv where
  loadRaises : Bool
  hasLyrics : Bool
  tags : TagReadEnv
  lookup : LrclibEnv
  embedRaises : Bool
  manualArtist : Option (List Char)
  manualTitle : Option (List Char)
  manualLookup : LrclibEnv
  manualEmbedRaises : Bool
  deriving DecidableEq

/-- A regular file as enumerated by os.walk for the remote batch. -/
structure RFile where
  name : List Char
  env : RemoteFileEnv
  deriving DecidableEq

/-- Accumulated state of the remote batch main loop.  The skipped count
is instrumentation as in the local batch; needsManual is the deferred
queue the source accumulates for the manual pass. -/
structure BatchState where
  embedded : Nat
  skipped : Nat
  failed : List (List Char)
  needsManual : List RFile
  deriving DecidableEq

/-- The tag-resolution prologue of the remote per-file step (lrcput.py
lines 326-333): read native tags; when artist or title is falsy, run the
filename heuristic and, if it produced any truthy part, fill each falsy
field from it using Python or-semantics. -/
def resolveTags (name : List Char) (tags : TagReadEnv) :
    Option (List Char) × Option (List Char) × Option Int :=
  let r := read_tags_for_lrclib name tags
  if !(truthy r.1) || !(truthy r.2.1) then
    let p := parse_artist_title_from_filename name
    if truthy p.1 || !(p.2.isEmpty) then
      (pyOr r.1 p.1, pyOr r.2.1 (some p.2), r.2.2)
    else (r.1, r.2.1, r.2.2)
  else (r.1, r.2.1, r.2.2)

/-- The remainder of the remote per-file step (lrcput.py lines 326-363):
defer to the manual queue when artist or title is still falsy after the
heuristic; otherwise query the service, count a falsy result as failed
(not found), count a raise during embedding as failed (caught by the
loop handler), else count an embed. -/
def lrclibResolve (st : BatchState) (f : RFile) : BatchState :=
  let r := resolveTags f.name f.env.tags
  if !(truthy r.1) || !(truthy r.2.1) then
    { st with needsManual := st.needsManual ++ [f] }
  else
    let lyrics := (fetch_lyrics_from_lrclib r.1 r.2.1 r.2.2 f.env.lookup).1
    if !(truthyS lyrics) then { st with failed := st.failed ++ [f.name] }
    else if f.env.embedRaises then { st with failed := st.failed ++ [f.name] }
    else { st with embedded := st.embedded + 1 }

/-- One iteration of the remote per-file loop (lrcput.py lines 308-364):
the optional skip-existing check loads an audio object through the
case-sensitive extension chain (a raise there is inside the try block
and lands the file in the failed list; an unmatched extension loads
nothing and the check passes through), then the resolution step runs. -/
def lrclibStep (skip_existing : Bool) (st : BatchState) (f : RFile) :
    BatchState :=
  if skip_existing && (skipCheckAdapter f.name).isSome then
    if f.env.loadRaises then { st with failed := st.failed ++ [f.name] }
    else if f.env.hasLyrics then { st with skipped := st.skipped + 1 }
    else lrclibResolve st f
  else lrclibResolve st f

/-- One iteration of the manual-resolution pass (lrcput.py lines
380-403): cancelling either prompt abandons the file; a falsy lookup
result or a raise during embedding leaves the count unchanged; a
successful embed adds one. -/
def manualStep (acc : Nat) (f : RFile) : Nat :=
  match f.env.manualArtist with
  | none => acc
  | some a =>
    match f.env.manualTitle with
    | none => acc
    | some t =>
      let lyrics := (fetch_lyrics_from_lrclib (noneIfEmpty (trimL a))
        (noneIfEmpty (trimL t)) none f.env.manualLookup).1
      if !(truthyS lyrics) then acc
      else if f.env.manualEmbedRaises then acc
      else acc + 1

/-- embed_lrclib_batch with the instrumented state: enumerate remote
candidates, run the main loop, then the manual pass over the deferred
queue, adding its successes to the embedded count.  The reduce_lrc flag
is accepted and ignored, as in the source. -/
def embed_lrclib_batch_full (walk : List (List RFile))
    (skip_existing reduce_lrc recursive : Bool) : Nat × BatchState :=
  let scanned := if recursive then walk else walk.take 1
  let audio_files := scanned.flatten.filter (fun f => isRemoteCandidate f.name)
  let st := audio_files.foldl (lrclibStep skip_existing) ⟨0, 0, [], []⟩
  let manual_embedded := st.needsManual.foldl manualStep 0
  (audio_files.length, { st with embedded := st.embedded + manual_embedded })

/-- embed_lrclib_batch as the source returns it: (total files, embedded
count, failed list). -/
def embed_lrclib_batch (walk : List (List RFile))
    (skip_existing reduce_lrc recursive : Bool) :
    Nat × Nat × List (List Char) :=
  let r := embed_lrclib_batch_full walk skip_existing reduce_lrc recursive
  (r.1, r.2.embedded, r.2.failed)

/-! ## Bookkeeping measures and concrete environments -/

/-- The bucket total of the local batch state: embedded + skipped +
number of failures. -/
def localSum (st : LState) : Nat :=
  st.embedded + st.skipped + st.failed.length

/-- The bucket total of the remote batch main-loop state, counting the
deferred queue as its own bucket. -/
def remoteSum (st : BatchState) : Nat :=
  st.embedded + st.skipped + st.failed.length + st.needsManual.length

/-- A local file whose companion exists and whose every operation
succeeds. -/
def lfGood : LFile :=
  ⟨"a.mp3".toList,
   { lrcExists := true, loadRaises := false, hasLyrics := false,
     embedRaises := false, removeRaises := false, moveRaises := false }⟩

/-- A local file whose embed succeeds but whose companion removal then
raises: the handler counts it failed after the embed was already
counted. -/
def lfRemoveFail : LFile :=
  ⟨"a.mp3".toList,
   { lrcExists := true, loadRaises := false, hasLyrics := false,
     embedRaises := false, removeRaises := true, moveRaises := false }⟩

/-- A local file with no companion lyric file; the other outcomes are
irrelevant because no operation on it is reached. -/
def lfNoLrcEnv : LocalFileEnv :=
  { lrcExists := false, loadRaises := false, hasLyrics := false,
    embedRaises := false, removeRaises := false, moveRaises := false }

/-- A network environment in which both requests would raise. -/
def lookupDead : LrclibEnv := ⟨GetOutcome.raise, SearchOutcome.raise⟩

/-- A network environment in which the get request raises while the
search endpoint would have returned one candidate with plain lyrics. -/
def lookupGetRaises : LrclibEnv :=
  ⟨GetOutcome.raise,
   SearchOutcome.resp 200 false (SearchBody.items [⟨none, some "from search"⟩])⟩

/-- A network environment in which the get request misses (404) and the
search request returns one candidate with plain lyrics. -/
def lookupSearchHit : LrclibEnv :=
  ⟨GetOutcome.resp 404 false ⟨none, none⟩,
   SearchOutcome.resp 200 false (SearchBody.items [⟨none, some "from search"⟩])⟩

/-- A network environment in which both requests miss with 404. -/
def lookupMiss : LrclibEnv :=
  ⟨GetOutcome.resp 404 false ⟨none, none⟩,
   SearchOutcome.resp 404 false SearchBody.nonList⟩

/-- A tag-read environment whose load raises, so every native read
yields fully absent metadata. -/
def tagsAbsent : TagReadEnv :=
  { loadRaises := true, noTags := false, artist := none, title := none,
    durRaises := false, duration := none }

/-- A tag-read environment that reads artist and title successfully and
then raises while computing the duration. -/
def tagsDurationRaises : TagReadEnv :=
  { loadRaises := false, noTags := false, artist := some ("A".toList),
    title := some ("T".toList), durRaises := true, duration := some 300 }

/-- A tag-read environment with both identifying tags present and a
clean duration read. -/
def tagsPresent : TagReadEnv :=
  { loadRaises := false, noTags := false, artist := some ("A".toList),
    title := some ("T".toList), durRaises := false, duration := some 200 }

/-- A remote-batch file named Song.mp3 with no readable tags: the
filename heuristic supplies a title but no artist, and the manual pass
is cancelled at the artist prompt. -/
def rfSongNoTags : RFile :=
  ⟨"Song.mp3".toList,
   { loadRaises := false, hasLyrics := false, tags := tagsAbsent,
     lookup := lookupDead, embedRaises := false, manualArtist := none,
     manualTitle := none, manualLookup := lookupDead,
     manualEmbedRaises := false }⟩

/-- A remote-batch file with readable artist and title whose lookup
misses at both endpoints. -/
def rfTagsLookupMiss : RFile :=
  ⟨"b.flac".toList,
   { loadRaises := false, hasLyrics := false, tags := tagsPresent,
     lookup := lookupMiss, embedRaises := false, manualArtist := none,
     manualTitle := none, manualLookup := lookupDead,
     manualEmbedRaises := false }⟩

/-! ## Helper lemmas -/

/-- splitFirstSub finds a split exactly when the separator occurs as an
infix (for a non-empty separator). -/
theorem splitFirstSub_isSome_iff (sep : List Char) (hne : sep ≠ []) :
    ∀ l : List Char, (splitFirstSub sep l).isSome = true ↔ sep <:+: l := by
  intro l
  induction l with
  | nil =>
    simp only [splitFirstSub, Option.isSome_none, List.infix_nil]
    simp [hne]
  | cons c cs ih =>
    simp only [splitFirstSub]
    by_cases hp : sep.isPrefixOf (c :: cs)
    · simp only [hp, if_true, Option.isSome_some, true_iff]
      exact ( List.isPrefixOf_iff_prefix.mp hp).isInfix
    · simp only [hp, Bool.false_eq_true, if_false]
      rw [ List.infix_cons_iff]
      have hp' : ¬ (sep <+: c :: cs) := fun h => hp ( List.isPrefixOf_iff_prefix.mpr h)
      cases hs : splitFirstSub sep cs with
      | none =>
        simp only [Option.isSome_none]
        rw [hs] at ih
        simp only [Option.isSome_none] at ih
        simp [hp', ← ih]
      | some p =>
        rw [hs] at ih
        simp only [Option.isSome_some] at ih
        cases p with
        | mk pre post =>
          simp only [Option.isSome_some, true_iff]
          exact Or.inr (ih.mp (by simp))

/-- The found/not-found dichotomy of splitFirstSub as an equation for the
none case. -/
theorem splitFirstSub_eq_none_of_not_infix (sep l : List Char) (hne : sep ≠ [])
    (h : ¬ sep <:+: l) : splitFirstSub sep l = none := by
  cases hs : splitFirstSub sep l with
  | none => rfl
  | some p =>
    exact absurd ((splitFirstSub_isSome_iff sep hne l).mp (by rw [hs]; rfl)) h

/-- The source selection loop over search candidates equals first-find
on truthy syncedLyrics. -/
theorem pickBest_eq_find (l : List LrcRecord) :
    pickBest l = l.find? (fun r => truthyS r.syncedLyrics) := by
  induction l with
  | nil => rfl
  | cons it rest ih =>
    simp only [pickBest, List.find?]
    by_cases h : truthyS it.syncedLyrics
    · simp [h]
    · simp [h, ih]

/-- One local per-file step grows the bucket total by at most one,
provided the step cannot take the embed-then-failed-removal path. -/
theorem lrcStep_sum_le (se rl : Bool) (st st1 : LState) (f : LFile)
    (hc : f.env.embedRaises = true ∨ rl = false ∨ f.env.removeRaises = false)
    (h : lrcStep se rl st f = Except.ok st1) :
    localSum st1 ≤ localSum st + 1 := by
  unfold lrcStep lrcTryEmbed lrcHandler at h
  repeat' split at h
  all_goals simp only [Except.ok.injEq, reduceCtorEq] at h
  all_goals try subst h
  all_goals simp_all [localSum, List.length_append]
  all_goals omega

/-- Folding the local per-file step over a candidate list grows the
bucket total by at most the list length. -/
theorem lrc_fold_sum_le (se rl : Bool) :
    ∀ (files : List LFile) (st0 st1 : LState),
    (∀ f ∈ files, f.env.embedRaises = true ∨ rl = false ∨
      f.env.removeRaises = false) →
    files.foldlM (fun s f => lrcStep se rl s f) st0 = Except.ok st1 →
    localSum st1 ≤ localSum st0 + files.length := by
  intro files
  induction files with
  | nil =>
    intro st0 st1 _ h
    simp only [List.foldlM_nil, pure, Except.pure, Except.ok.injEq] at h
    simp [h]
  | cons f fs ih =>
    intro st0 st1 hall h
    rw [List.foldlM_cons] at h
    cases hstep : lrcStep se rl st0 f with
    | error e =>
      rw [hstep] at h
      simp [Bind.bind, Except.bind] at h
    | ok stm =>
      rw [hstep] at h
      have h1 := lrcStep_sum_le se rl st0 stm f (hall f (by simp)) hstep
      have h2 := ih stm st1 (fun g hg => hall g (by simp [hg]))
        (by simpa [Bind.bind, Except.bind] using h)
      simp only [List.length_cons]
      omega

/-- One remote per-file step grows the bucket total by exactly one:
every path lands the file in exactly one bucket. -/
theorem lrclibStep_sum (se : Bool) (st : BatchState) (f : RFile) :
    remoteSum (lrclibStep se st f) = remoteSum st + 1 := by
  simp only [lrclibStep, lrclibResolve, remoteSum]
  repeat' split
  all_goals simp_all [List.length_append]
  all_goals omega

/-- Folding the remote per-file step over a candidate list grows the
bucket total by exactly the list length. -/
theorem lrclib_fold_sum (se : Bool) :
    ∀ (files : List RFile) (st0 : BatchState),
    remoteSum (files.foldl (lrclibStep se) st0) = remoteSum st0 + files.length := by
  intro files
  induction files with
  | nil => intro st0; simp
  | cons f fs ih =>
    intro st0
    rw [List.foldl_cons, ih, lrclibStep_sum]
    simp only [List.length_cons]
    omega

/-- One manual-resolution step adds at most one to the embed count. -/
theorem manualStep_le (a : Nat) (f : RFile) : manualStep a f ≤ a + 1 := by
  simp only [manualStep]
  repeat' split
  all_goals omega

/-- The manual pass embeds at most as many files as were deferred. -/
theorem manual_fold_le :
    ∀ (l : List RFile) (a : Nat), l.foldl manualStep a ≤ a + l.length := by
  intro l
  induction l with
  | nil => intro a; simp
  | cons f fs ih =>
    intro a
    rw [List.foldl_cons]
    calc (fs.foldl manualStep (manualStep a f)) ≤ manualStep a f + fs.length := ih _
    _ ≤ a + 1 + fs.length := by have := manualStep_le a f; omega
    _ = a + (f :: fs).length := by simp only [List.length_cons]; omega

/-! ## Claim theorems -/

/-- Claim C5: for every path, the filename heuristic takes the filename
without directory (splitting on both slash styles) and without
extension; a stem containing the dash separator is split at its first
occurrence into (artist, title); else a stem containing an underscore is
split at its first occurrence; else the artist is absent and the whole
stem is the title; both parts are trimmed.  The source function equals
the specification-worded function on every input. -/
theorem c5_filename_heuristic (path : List Char) :
    parse_artist_title_from_filename path = parse_spec path := by
  unfold parse_artist_title_from_filename parse_spec
  cases hd : splitFirstSub (" - ".toList) (stemOf (lastComponentBoth path)) with
  | some p =>
    have h1 : (" - ".toList) <:+: stemOf (lastComponentBoth path) :=
      (splitFirstSub_isSome_iff _ (by decide) _).mp (by rw [hd]; rfl)
    cases p with
    | mk a t => rw [if_pos h1]
  | none =>
    have h1 : ¬ ((" - ".toList) <:+: stemOf (lastComponentBoth path)) := by
      intro h
      have h2 := (splitFirstSub_isSome_iff (" - ".toList) (by decide)
        (stemOf (lastComponentBoth path))).mpr h
      rw [hd] at h2
      simp at h2
    cases hu : splitFirstSub ("_".toList) (stemOf (lastComponentBoth path)) with
    | some q =>
      have h2 : ("_".toList) <:+: stemOf (lastComponentBoth path) :=
        (splitFirstSub_isSome_iff _ (by decide) _).mp (by rw [hu]; rfl)
      cases q with
      | mk a t => rw [if_neg h1, if_pos h2]
    | none =>
      have h2 : ¬ (("_".toList) <:+: stemOf (lastComponentBoth path)) := by
        intro h
        have h3 := (splitFirstSub_isSome_iff ("_".toList) (by decide)
          (stemOf (lastComponentBoth path))).mpr h
        rw [hu] at h3
        simp at h3
      rw [if_neg h1, if_neg h2]

/-- Claim C6: a lookup whose artist or title is absent or empty returns
no result and issues zero network requests. -/
theorem c6_lookup_short_circuit (artist title : Option (List Char))
    (duration : Option Int) (env : LrclibEnv)
    (h : truthy artist = false ∨ truthy title = false) :
    fetch_lyrics_from_lrclib artist title duration env = (none, []) := by
  unfold fetch_lyrics_from_lrclib
  rcases h with h | h <;> simp [h]

/-- Witness for C6 at a concrete input: an absent artist short-circuits
even though the network environment would answer. -/
theorem c6_lookup_short_circuit_witness :
    fetch_lyrics_from_lrclib none (some ("T".toList)) none lookupSearchHit =
      (none, []) :=
  c6_lookup_short_circuit none (some ("T".toList)) none lookupSearchHit
    (Or.inl rfl)

/-- Claim C7: when the search step runs because the get step yielded
nothing, and the search response is a 200 with a non-empty candidate
list, the client selects the first candidate with a non-empty
synced-lyrics field, else the first candidate, and returns its synced
lyrics when non-empty, otherwise its plain lyrics. -/
theorem c7_search_selection (artist title : Option (List Char))
    (duration : Option Int) (env : LrclibEnv) (it : LrcRecord)
    (rest : List LrcRecord)
    (ha : truthy artist = true) (ht : truthy title = true)
    (hm : getStepMisses env = true)
    (hs : env.searchResp = SearchOutcome.resp 200 false
      (SearchBody.items (it :: rest))) :
    (fetch_lyrics_from_lrclib artist title duration env).1 =
      (if truthyS (((it :: rest).find? (fun r => truthyS r.syncedLyrics)).getD
          it).syncedLyrics
       then (((it :: rest).find? (fun r => truthyS r.syncedLyrics)).getD
          it).syncedLyrics
       else (((it :: rest).find? (fun r => truthyS r.syncedLyrics)).getD
          it).plainLyrics) := by
  have hsearch : (lrclibSearchStep env).1 =
      (if truthyS (((it :: rest).find? (fun r => truthyS r.syncedLyrics)).getD
          it).syncedLyrics
       then (((it :: rest).find? (fun r => truthyS r.syncedLyrics)).getD
          it).syncedLyrics
       else (((it :: rest).find? (fun r => truthyS r.syncedLyrics)).getD
          it).plainLyrics) := by
    simp only [lrclibSearchStep, hs, if_true, pickBest_eq_find]
    cases hf : (it :: rest).find? (fun r => truthyS r.syncedLyrics) with
    | none => simp [pyOrS]
    | some b => simp [pyOrS]
  unfold fetch_lyrics_from_lrclib
  simp only [ha, ht, Bool.not_true, Bool.or_self, Bool.false_or]
  unfold getStepMisses at hm
  cases hg : env.getResp with
  | raise => rw [hg] at hm; simp at hm
  | resp s j b =>
    rw [hg] at hm
    by_cases h200 : s = 200
    · subst h200
      simp only [reduceIte] at hm
      rw [Bool.and_eq_true] at hm
      obtain ⟨hj, hmiss⟩ := hm
      simp only [Bool.not_eq_true'] at hj hmiss
      simp [hj, hmiss, hsearch]
    · simp [h200, hsearch]

/-- Witness for C7 at a concrete input: a 404 get followed by a search
hit whose single candidate has only plain lyrics yields those plain
lyrics. -/
theorem c7_search_selection_witness :
    (fetch_lyrics_from_lrclib (some ("A".toList)) (some ("B".toList)) none
      lookupSearchHit).1 = some "from search" := by
  have h := c7_search_selection (some ("A".toList)) (some ("B".toList)) none
    lookupSearchHit ⟨none, some "from search"⟩ [] (by decide) (by decide)
    (by decide) (by decide)
  simpa using h

/-- Counterexample for C3: with artist and title present, a raised
(network error or timeout) get request does not fall through to the
search step; the lookup returns no result after issuing only the get
request, even though the search endpoint would have returned lyrics. -/
theorem c3_counterexample :
    fetch_lyrics_from_lrclib (some ("A".toList)) (some ("T".toList)) none
      lookupGetRaises = (none, [Req.get]) ∧
    ([Req.get] : List Req) ≠ [Req.get, Req.search] := by
  constructor
  · rfl
  · decide

/-- Claim C3 (amended): with non-empty artist and title, a non-200
status on the get request is treated as no-result-for-that-step and the
search request is still issued (the call returns exactly the search-step
outcome, whose request trace contains both endpoints); a raised network
error or timeout on the get request instead aborts the lookup, returning
no result with only the get request issued.  In both cases the caller
receives a value and no exception. -/
theorem c3_get_failure_amended (artist title : Option (List Char))
    (duration : Option Int) (env : LrclibEnv)
    (ha : truthy artist = true) (ht : truthy title = true) :
    (env.getResp = GetOutcome.raise →
      fetch_lyrics_from_lrclib artist title duration env = (none, [Req.get])) ∧
    (∀ s j b, env.getResp = GetOutcome.resp s j b → s ≠ 200 →
      fetch_lyrics_from_lrclib artist title duration env =
        lrclibSearchStep env) ∧
    (lrclibSearchStep env).2 = [Req.get, Req.search] := by
  refine ⟨?_, ?_, ?_⟩
  · intro hg
    unfold fetch_lyrics_from_lrclib
    simp [ha, ht, hg]
  · intro s j b hg hne
    unfold fetch_lyrics_from_lrclib
    rw [hg]
    simp [ha, ht, hne]
  · simp only [lrclibSearchStep]
    repeat' split
    all_goals rfl

/-- Witness for the amended C3 at a concrete input: a 404 get falls
through to the search step. -/
theorem c3_get_failure_amended_witness :
    fetch_lyrics_from_lrclib (some ("A".toList)) (some ("T".toList)) none
      lookupSearchHit = lrclibSearchStep lookupSearchHit :=
  (c3_get_failure_amended (some ("A".toList)) (some ("T".toList)) none
    lookupSearchHit rfl rfl).2.1 404 false ⟨none, none⟩ rfl (by decide)

/-- Counterexample for C1: a single candidate whose embed succeeds and
whose companion removal then raises is counted both embedded and failed,
so that embedded + len(failed) = 2 exceeds the total of 1 (regardless of
the skipped count, which is at least zero). -/
theorem c1_counterexample :
    embed_lrc [[lfRemoveFail]] false true true =
      Except.ok (1, 1, ["a.mp3".toList]) ∧ 1 + 1 > 1 := by
  exact ⟨rfl, by omega⟩

/-- Claim C1 (amended): the invariant embedded + skipped + len(failed)
less-or-equal total holds for every remote batch run unconditionally,
and for every local batch run that returns, provided no file takes the
embed-then-failed-removal path (each file either fails to embed, or the
reduce flag is off, or its removal succeeds); a removal raise after a
successful embed counts the same file in two buckets. -/
theorem c1_batch_invariant_amended (walkL : List (List LFile))
    (walkR : List (List RFile)) (se rl rec se2 rl2 rec2 : Bool)
    (t e s : Nat) (fl : List (List Char))
    (hrm : ∀ f ∈ walkL.flatten, f.env.embedRaises = true ∨ rl = false ∨
      f.env.removeRaises = false)
    (hok : embed_lrc_full walkL se rl rec = Except.ok (t, ⟨e, s, fl⟩)) :
    e + s + fl.length ≤ t ∧
    (embed_lrclib_batch_full walkR se2 rl2 rec2).2.embedded +
      (embed_lrclib_batch_full walkR se2 rl2 rec2).2.skipped +
      (embed_lrclib_batch_full walkR se2 rl2 rec2).2.failed.length ≤
      (embed_lrclib_batch_full walkR se2 rl2 rec2).1 := by
  constructor
  · have hmem : ∀ f ∈ ((if rec then walkL else walkL.take 1).flatten.filter
        (fun f => isLocalCandidate f.name)),
        f.env.embedRaises = true ∨ rl = false ∨ f.env.removeRaises = false := by
      intro f hf
      have hf1 : f ∈ (if rec then walkL else walkL.take 1).flatten :=
        (List.mem_filter.mp hf).1
      have hf2 : f ∈ walkL.flatten := by
        rcases List.mem_flatten.mp hf1 with ⟨l, hl, hfl⟩
        refine List.mem_flatten.mpr ⟨l, ?_, hfl⟩
        cases rec
        · simp only [Bool.false_eq_true, if_false] at hl
          exact List.take_subset _ _ hl
        · simpa using hl
      exact hrm f hf2
    unfold embed_lrc_full at hok
    cases hfold : ((if rec then walkL else walkL.take 1).flatten.filter
        (fun f => isLocalCandidate f.name)).foldlM
        (fun s f => lrcStep se rl s f) (⟨0, 0, []⟩ : LState) with
    | error u => rw [hfold] at hok; simp at hok
    | ok stf =>
      rw [hfold] at hok
      simp only [Except.ok.injEq, Prod.mk.injEq] at hok
      obtain ⟨ht, hst⟩ := hok
      have hb := lrc_fold_sum_le se rl _ _ _ hmem hfold
      rw [hst] at hb
      simp only [localSum, List.length_nil] at hb
      subst ht
      omega
  · unfold embed_lrclib_batch_full
    have hsum := lrclib_fold_sum se2
      (((if rec2 then walkR else walkR.take 1).flatten.filter
        (fun f => isRemoteCandidate f.name))) ⟨0, 0, [], []⟩
    have hman := manual_fold_le
      ((((if rec2 then walkR else walkR.take 1).flatten.filter
        (fun f => isRemoteCandidate f.name)).foldl (lrclibStep se2)
        ⟨0, 0, [], []⟩)).needsManual 0
    simp only [remoteSum, List.length_nil] at hsum
    simp only []
    omega

/-- Witness for the amended C1 at concrete inputs: one clean local embed
and the empty remote walk. -/
theorem c1_batch_invariant_amended_witness :
    1 + 0 + ([] : List (List Char)).length ≤ 1 ∧
    (embed_lrclib_batch_full [] false false false).2.embedded +
      (embed_lrclib_batch_full [] false false false).2.skipped +
      (embed_lrclib_batch_full [] false false false).2.failed.length ≤
      (embed_lrclib_batch_full [] false false false).1 :=
  c1_batch_invariant_amended [[lfGood]] [] false false false false false false
    1 1 0 [] (by decide) rfl

/-- Counterexample for C4: a directory holding one audio file with a
matching extension and no companion lyric file yields total 1, not 0;
the file is counted in the returned total (while indeed producing no
failure). -/
theorem c4_counterexample :
    embed_lrc [[⟨"a.mp3".toList, lfNoLrcEnv⟩]] false false false =
      Except.ok (1, 0, []) ∧ (1 : Nat) ≠ 0 := by
  exact ⟨rfl, by omega⟩

/-- Claim C4 (amended): in local batch mode an audio file with a
matching extension whose companion lyric file does not exist is counted
in the returned total, but produces no embed, no skip and no failure. -/
theorem c4_no_companion_amended (name : List Char) (env : LocalFileEnv)
    (se rl rec : Bool) (hc : isLocalCandidate name = true)
    (hn : env.lrcExists = false) :
    embed_lrc_full [[⟨name, env⟩]] se rl rec = Except.ok (1, ⟨0, 0, []⟩) := by
  unfold embed_lrc_full
  have hstep : lrcStep se rl ⟨0, 0, []⟩ ⟨name, env⟩ =
      Except.ok (⟨0, 0, []⟩ : LState) := by
    unfold lrcStep
    simp [hn]
  cases rec <;>
    simp [List.foldlM_cons, List.foldlM_nil, hc, hstep, List.filter]

/-- Witness for the amended C4 at a concrete input. -/
theorem c4_no_companion_amended_witness :
    embed_lrc_full [[⟨"a.mp3".toList, lfNoLrcEnv⟩]] true true true =
      Except.ok (1, ⟨0, 0, []⟩) :=
  c4_no_companion_amended ("a.mp3".toList) lfNoLrcEnv true true true
    (by decide) rfl

/-- Counterexample for C8: running both batch runners over the walk of a
directory that does not exist (os.walk yields no entries for such a
directory) silently returns the empty result (total 0, embedded 0, no
failures) instead of surfacing an error. -/
theorem c8_counterexample :
    embed_lrc [] true true true = Except.ok (0, 0, []) ∧
    embed_lrclib_batch [] true false true = (0, 0, []) := by
  exact ⟨rfl, rfl⟩

/-- Claim C8 (amended): for every flag setting, a batch over a
nonexistent directory (an empty walk) returns the empty result with no
error surfaced; the enumeration swallows the missing-directory
condition. -/
theorem c8_missing_directory_amended (se rl rec se2 rl2 rec2 : Bool) :
    embed_lrc_full [] se rl rec = Except.ok (0, ⟨0, 0, []⟩) ∧
    embed_lrclib_batch_full [] se2 rl2 rec2 = (0, ⟨0, 0, [], []⟩) := by
  refine ⟨?_, ?_⟩
  · cases rec <;> rfl
  · cases rec2 <;> rfl

/-- Counterexample for C2: a remote-batch file named Song.mp3 with no
readable tags is deferred to the manual queue even though the filename
heuristic supplied a title; after tags and heuristic the title is
present (Song) and only the artist is absent, contradicting deferral
only on both being absent. -/
theorem c2_counterexample :
    (embed_lrclib_batch_full [[rfSongNoTags]] false false false).2.needsManual =
      [rfSongNoTags] ∧
    (resolveTags rfSongNoTags.name rfSongNoTags.env.tags).2.1 =
      some ("Song".toList) := by
  exact ⟨rfl, rfl⟩

/-- Claim C2 (amended): in remote batch mode a candidate is deferred to
the interactive pass exactly when artist or title is still absent or
empty after native tags and the filename heuristic; when both are
present and the lookup yields nothing the file is counted failed (not
found), not deferred. -/
theorem c2_defer_amended (st : BatchState) (f : RFile)
    (a t : Option (List Char)) (d : Option Int)
    (hr : resolveTags f.name f.env.tags = (a, t, d)) :
    ((truthy a = false ∨ truthy t = false) →
      lrclibResolve st f = { st with needsManual := st.needsManual ++ [f] }) ∧
    (truthy a = true → truthy t = true →
      truthyS (fetch_lyrics_from_lrclib a t d f.env.lookup).1 = false →
      lrclibResolve st f = { st with failed := st.failed ++ [f.name] }) := by
  constructor
  · intro h
    simp only [lrclibResolve, hr]
    rcases h with h | h <;> simp [h]
  · intro ha ht hl
    simp only [lrclibResolve, hr]
    simp [ha, ht, hl]

/-- Witness for the amended C2 at a concrete input: readable tags and a
double lookup miss land the file in the failed bucket. -/
theorem c2_defer_amended_witness :
    lrclibResolve ⟨0, 0, [], []⟩ rfTagsLookupMiss =
      ⟨0, 0, ["b.flac".toList], []⟩ :=
  (c2_defer_amended ⟨0, 0, [], []⟩ rfTagsLookupMiss (some ("A".toList))
    (some ("T".toList)) (some 200) rfl).2 rfl rfl rfl

/-- Counterexample for C9: a FLAC file whose artist and title read
succeeds and whose duration computation then raises returns the partial
result (artist, title, absent duration), not fully-absent metadata. -/
theorem c9_counterexample :
    read_tags_for_lrclib ("song.flac".toList) tagsDurationRaises =
      (some ("A".toList), some ("T".toList), none) ∧
    tagsDurationRaises.durRaises = true ∧
    ((some ("A".toList), some ("T".toList), (none : Option Int)) ≠
      ((none : Option (List Char)), (none : Option (List Char)),
        (none : Option Int))) := by
  refine ⟨rfl, rfl, by decide⟩

/-- Claim C9 (amended): the metadata reader never lets an exception
propagate (it is total over every failure environment); a failure while
loading the file yields fully-absent metadata, while a failure during
the duration computation yields the already-read artist and title with
an absent duration. -/
theorem c9_read_failure_amended (name : List Char) (env : TagReadEnv) :
    (env.loadRaises = true →
      read_tags_for_lrclib name env = (none, none, none)) ∧
    (env.durRaises = true → (read_tags_for_lrclib name env).2.2 = none) := by
  constructor
  · intro h
    unfold read_tags_for_lrclib
    repeat' split
    all_goals simp_all
  · intro h
    unfold read_tags_for_lrclib
    repeat' split
    all_goals simp_all

/-- Witness for the amended C9 at concrete inputs: a raising load yields
fully-absent metadata, and a raising duration computation yields an
absent duration. -/
theorem c9_read_failure_amended_witness :
    read_tags_for_lrclib ("x.flac".toList) tagsAbsent = (none, none, none) ∧
    (read_tags_for_lrclib ("song.flac".toList) tagsDurationRaises).2.2 = none :=
  ⟨(c9_read_failure_amended ("x.flac".toList) tagsAbsent).1 rfl,
   (c9_read_failure_amended ("song.flac".toList) tagsDurationRaises).2 rfl⟩

/-- The splitext extension of any path ending in the literal x.FLAC is
the uppercase .FLAC (the final dot is preceded by the non-dot x, so the
extension is valid whatever comes before). -/
theorem extOf_append_xFLAC (s : List Char) :
    extOf (s ++ ("x.FLAC".toList)) = ".FLAC".toList := by
  unfold extOf
  rw [List.reverse_append]
  have h : ("x.FLAC".toList).reverse ++ s.reverse =
      'C' :: 'A' :: 'L' :: 'F' :: '.' :: 'x' :: s.reverse := rfl
  rw [h]
  simp [extRevAux, hasNonDotBeforeSlash]

/-- The splitext extension of any path ending in the literal x.Mp3. -/
theorem extOf_append_xMp3 (s : List Char) :
    extOf (s ++ ("x.Mp3".toList)) = ".Mp3".toList := by
  unfold extOf
  rw [List.reverse_append]
  have h : ("x.Mp3".toList).reverse ++ s.reverse =
      '3' :: 'p' :: 'M' :: '.' :: 'x' :: s.reverse := rfl
  rw [h]
  simp [extRevAux, hasNonDotBeforeSlash]

/-- The splitext extension of any path ending in the literal x.flac. -/
theorem extOf_append_xflac (s : List Char) :
    extOf (s ++ ("x.flac".toList)) = ".flac".toList := by
  unfold extOf
  rw [List.reverse_append]
  have h : ("x.flac".toList).reverse ++ s.reverse =
      'c' :: 'a' :: 'l' :: 'f' :: '.' :: 'x' :: s.reverse := rfl
  rw [h]
  simp [extRevAux, hasNonDotBeforeSlash]

/-- A name ending in the uppercase .FLAC does not end in any of the
three lowercase extensions the case-sensitive chains test for. -/
theorem endswith_xFLAC (s : List Char) :
    endswith (s ++ ("x.FLAC".toList)) (".flac".toList) = false ∧
    endswith (s ++ ("x.FLAC".toList)) (".mp3".toList) = false ∧
    endswith (s ++ ("x.FLAC".toList)) (".m4a".toList) = false ∧
    endswith (s ++ ("x.FLAC".toList)) (".wav".toList) = false ∧
    endswith (s ++ ("x.FLAC".toList)) (".ogg".toList) = false ∧
    endswith (s ++ ("x.FLAC".toList)) (".aac".toList) = false ∧
    endswith (s ++ ("x.FLAC".toList)) (".wma".toList) = false ∧
    endswith (s ++ ("x.FLAC".toList)) (".alac".toList) = false := by
  refine ⟨?_, ?_, ?_, ?_, ?_, ?_, ?_, ?_⟩
  all_goals
    simp [endswith, List.isSuffixOf, List.reverse_append, List.isPrefixOf]

/-- A name ending in the lowercase .flac passes the case-sensitive
endswith test for .flac. -/
theorem endswith_xflac (s : List Char) :
    endswith (s ++ ("x.flac".toList)) (".flac".toList) = true := by
  simp [endswith, List.isSuffixOf, List.reverse_append, List.isPrefixOf]

/-- Counterexample for C10: the existing-lyrics detection dispatch does
not treat the uppercase .FLAC like .flac: it selects no adapter for
x.FLAC (the generic no-lyrics fallback) while selecting the FLAC variant
for x.flac, even though the writeLyrics dispatch lowercases and handles
x.FLAC with the FLAC variant. -/
theorem c10_counterexample :
    skipCheckAdapter ("x.FLAC".toList) = none ∧
    skipCheckAdapter ("x.flac".toList) = some Adapter.flac ∧
    writeDispatch ("x.FLAC".toList) = Adapter.flac := by
  decide

/-- Claim C10 (amended): the writeLyrics dispatch lowercases the
extension, so names ending in x.FLAC or x.Mp3 are handled by the FLAC
and MP3 variants for every prefix; but the existing-lyrics detection
chain and the local candidate filter compare extensions case
sensitively, so every name ending in x.FLAC selects no adapter there and
is not a local batch candidate at all, while the lowercase counterpart
selects the FLAC variant. -/
theorem c10_case_sensitivity_amended (s : List Char) :
    writeDispatch (s ++ ("x.FLAC".toList)) = Adapter.flac ∧
    writeDispatch (s ++ ("x.Mp3".toList)) = Adapter.mp3 ∧
    skipCheckAdapter (s ++ ("x.FLAC".toList)) = none ∧
    isLocalCandidate (s ++ ("x.FLAC".toList)) = false ∧
    skipCheckAdapter (s ++ ("x.flac".toList)) = some Adapter.flac := by
  obtain ⟨h1, h2, h3, _, _, _, _, _⟩ := endswith_xFLAC s
  refine ⟨?_, ?_, ?_, ?_, ?_⟩
  · unfold writeDispatch
    rw [extOf_append_xFLAC]
    rfl
  · unfold writeDispatch
    rw [extOf_append_xMp3]
    rfl
  · unfold skipCheckAdapter
    rw [h1, h2, h3]
    rfl
  · unfold isLocalCandidate
    rw [h1, h2, h3]
    rfl
  · unfold skipCheckAdapter
    rw [endswith_xflac]
    rfl

end Lrcput
